import Mathlib

/-!
Verification of the fetch-cache-serve pipeline of `server.go`
(radio-paje-go-web): a shallow embedding of the B2 client methods
(`listFiles`, `selectRandomFile`, `downloadFile`) and the `/stream`
HTTP handler, together with proofs or refutations of the specified
properties (cache idempotence, path-traversal rejection, sticky
failure, cleanup on failed download, error-status mapping, key
encoding round-trip, empty-store behaviour, range correctness,
random-selection coverage, and the exact character substitution
performed by the redirect encoder).

Go strings are embedded as Lean `String`/`List Char`; byte contents
as `List Nat`; the filesystem under the cache root and the remote
object store as association lists; fallible Go calls as `Except`.
The `rand.Intn n` draw is passed in as an explicit `Nat` argument
(its contract, a value `< n`, appears as a hypothesis where needed).
-/

/-- Embedding of `selectRandomFile` (server.go lines 79-86):
`if len(fileNames) == 0 { return "", errors.New("no files found") };
randomIndex := rand.Intn(len(fileNames)); return fileNames[randomIndex], nil`.
The draw `randomIndex` models the result of `rand.Intn(len(fileNames))`,
which is always `< fileNames.length`; the `getD` default is unreachable
under that contract. -/
def selectRandomFile (fileNames : List String) (randomIndex : Nat) : Except String String :=
  if fileNames.length = 0 then .error "no files found"
  else .ok (fileNames.getD randomIndex "")

/-- Embedding of Go `strings.Replace(s, pat, rep, -1)` for the
single-character patterns used in server.go lines 184-186: every
occurrence of the character `c` is replaced by `rep`. -/
def replaceAllChar : List Char → Char → List Char → List Char
  | [], _, _ => []
  | x :: rest, c, rep => (if x = c then rep else [x]) ++ replaceAllChar rest c rep

/-- Embedding of the redirect encoding of `stream` (server.go lines 184-186):
`strings.Replace(randomFile, " ", "%20", -1)` then `"#" → "%23"` then
`"?" → "%3F"`, applied in that order. -/
def encodeFile (s : String) : String :=
  String.mk (replaceAllChar
    (replaceAllChar
      (replaceAllChar s.data ' ' ['%', '2', '0'])
      '#' ['%', '2', '3'])
    '?' ['%', '3', 'F'])

/-- The simultaneous per-character substitution: space to `%20`, `#` to
`%23`, `?` to `%3F`, and every other character kept unchanged. Used to
characterise `encodeFile`. -/
def encChar (c : Char) : List Char :=
  if c = ' ' then ['%', '2', '0']
  else if c = '#' then ['%', '2', '3']
  else if c = '?' then ['%', '3', 'F']
  else [c]

/-- Outcome of the no-`file`-parameter branch of the `stream` handler:
either an error response with an HTTP status code, or a redirect to a
location. -/
inductive StreamNoKeyResult where
  | errorResp (status : Nat) (msg : String)
  | redirect (location : String)
deriving DecidableEq

/-- Embedding of the no-`file`-parameter branch of `stream`
(server.go lines 166-189): on a listing error respond 500; on an empty
listing, `selectRandomFile` fails and the handler responds 404
"No files available"; otherwise encode the chosen key and redirect to
`/stream?file=<encoded>` (302 Found). `randomIndex` models the
`rand.Intn` draw inside `selectRandomFile`. -/
def streamNoFile (listResult : Except String (List String)) (randomIndex : Nat) :
    StreamNoKeyResult :=
  match listResult with
  | .error _ => .errorResp 500 "Failed to list files"
  | .ok fileNames =>
    match selectRandomFile fileNames randomIndex with
    | .error _ => .errorResp 404 "No files available"
    | .ok randomFile => .redirect ("/stream?file=" ++ encodeFile randomFile)

/-- A remote object's body as observed by the `io.Copy` in
`downloadFile`: either the whole byte content arrives, or the transfer
fails after some written proof-of-partial-transfer bytes (possibly
none) have reached the local file. -/
inductive ObjectBody where
  | whole (bytes : List Nat)
  | failsAfter (written : List Nat)
deriving DecidableEq

/-- Process-visible effects of the download path: the local files
under the process's working directory (path to byte content) and the
number of `s3Client.GetObject` remote calls issued so far. -/
structure DownloadState where
  fs : List (String × List Nat)
  remoteGets : Nat
deriving DecidableEq

/-- Writing a file: `os.Create` truncates or creates `path`, and the
copy leaves `bytes` in it; any previous content at `path` is replaced. -/
def fsWrite (fs : List (String × List Nat)) (path : String) (bytes : List Nat) :
    List (String × List Nat) :=
  (path, bytes) :: fs.filter (fun e => e.1 != path)

/-- Embedding of `downloadFile` (server.go lines 88-129). The method
unconditionally issues `s3Client.GetObject` (there is no cache lookup),
so `remoteGets` is incremented on every call. On a get error it returns
`failed to get object`. Otherwise it builds `filePath = "cache/" + fileName`
with no validation of the key, creates the directories and the file
(`os.MkdirAll` and `os.Create` are modelled as succeeding), and copies
the body: on success it returns the path; on a copy failure it returns
`failed to copy file content`, leaving whatever bytes were written in
place (the code has no `os.Remove`). -/
def downloadFile (store : List (String × ObjectBody)) (fileName : String)
    (st : DownloadState) : Except String String × DownloadState :=
  let st1 : DownloadState := { st with remoteGets := st.remoteGets + 1 }
  match store.lookup fileName with
  | none => (.error "failed to get object: NoSuchKey", st1)
  | some body =>
    let filePath := "cache/" ++ fileName
    match body with
    | .whole bytes =>
      (.ok filePath, { st1 with fs := fsWrite st1.fs filePath bytes })
    | .failsAfter written =>
      (.error "failed to copy file content", { st1 with fs := fsWrite st1.fs filePath written })

/-- Lexical normalisation of a `/`-separated path: `..` pops the
previous segment, `.` and empty segments vanish. Used to express when a
file path built under `cache/` escapes the cache root. -/
def normalizeSegments (segments : List String) : List String :=
  (segments.foldl
    (fun stack seg =>
      if seg = ".." then stack.tail
      else if seg = "." ∨ seg = "" then stack
      else seg :: stack)
    []).reverse

/-- Split a character list into its `/`-separated segments. -/
def splitSlash (l : List Char) : List (List Char) :=
  match l with
  | [] => [[]]
  | c :: rest =>
    if c = '/' then [] :: splitSlash rest
    else
      match splitSlash rest with
      | [] => [[c]]
      | s :: ss => (c :: s) :: ss

/-- Lexical normalisation of a `/`-separated path string. -/
def normalizePath (path : String) : List String :=
  normalizeSegments ((splitSlash path.data).map String.mk)

/-- Parse a non-empty all-digit character list as a decimal number. -/
def parseDigits (l : List Char) : Option Nat :=
  if l ≠ [] ∧ l.all (fun c => c.isDigit) then
    some (l.foldl (fun acc c => 10 * acc + (c.toNat - 48)) 0)
  else none

/-- Cut a character list at the first occurrence of `c`: the part
before it, and the part after it (empty when `c` does not occur),
modelling Go `strings.Cut`. -/
def cutFirst (l : List Char) (c : Char) : List Char × List Char :=
  (l.takeWhile (fun x => x != c), (l.dropWhile (fun x => x != c)).drop 1)

/-- Modelled from the spec: the single-range parsing of the `Range`
header performed inside `http.ServeFile` (whose source is not part of
this repository). Accepts `bytes=start-end`, open-ended `bytes=start-`,
and suffix `bytes=-N`; returns the inclusive byte interval to serve, or
`none` when the header is malformed or the range is unsatisfiable for a
resource of `size` bytes (both answered 416). -/
def parseRangeSpec (header : String) (size : Nat) : Option (Nat × Nat) :=
  match header.data with
  | 'b' :: 'y' :: 't' :: 'e' :: 's' :: '=' :: spec =>
    if spec.contains '-' then
      let startPart := (cutFirst spec '-').1
      let endPart := (cutFirst spec '-').2
      if startPart = [] then
        match parseDigits endPart with
        | some n => if n = 0 ∨ size = 0 then none else some (size - min n size, size - 1)
        | none => none
      else
        match parseDigits startPart with
        | some start =>
          if endPart = [] then
            if start < size then some (start, size - 1) else none
          else
            match parseDigits endPart with
            | some stop =>
              if start ≤ stop ∧ start < size then some (start, min stop (size - 1)) else none
            | none => none
        | none => none
    else none
  | _ => none

/-- An HTTP response to a ranged file request: status code, optional
`Content-Range` header value, and body bytes. -/
structure HttpServeResponse where
  status : Nat
  contentRange : Option String
  body : List Nat
deriving DecidableEq

/-- Modelled from the spec: the range-serving behaviour of
`http.ServeFile` (server.go line 209 delegates to the HTTP library,
whose source is not part of this repository). No `Range` header yields
`200` with the full content; a parsed single range yields
`206 Partial Content` with the matching `Content-Range` and exactly the
requested slice; a malformed or unsatisfiable range yields
`416` with `Content-Range: bytes */<size>`. -/
def serveFile (content : List Nat) (rangeHeader : Option String) : HttpServeResponse :=
  match rangeHeader with
  | none => { status := 200, contentRange := none, body := content }
  | some header =>
    match parseRangeSpec header content.length with
    | none =>
      { status := 416
        contentRange := some ("bytes */" ++ toString content.length)
        body := [] }
    | some (start, stop) =>
      { status := 206
        contentRange := some ("bytes " ++ toString start ++ "-" ++ toString stop
          ++ "/" ++ toString content.length)
        body := (content.drop start).take (stop + 1 - start) }

/-- Embedding of the `file`-parameter branch of `stream` (server.go
lines 192-209): call `downloadFile`; on any error respond
500 "Failed to download file" (the error kind is not inspected); on
success serve the cached file with range support. -/
def streamWithFile (store : List (String × ObjectBody)) (fileName : String)
    (rangeHeader : Option String) (st : DownloadState) :
    HttpServeResponse × DownloadState :=
  match downloadFile store fileName st with
  | (.error _, st1) => ({ status := 500, contentRange := none, body := [] }, st1)
  | (.ok filePath, st1) => (serveFile ((st1.fs.lookup filePath).getD []) rangeHeader, st1)

/-- Numeric value of a hexadecimal digit character (0 elsewhere). -/
def hexDigitVal (c : Char) : Nat :=
  if c.isDigit then c.toNat - 48
  else if decide ('a' ≤ c) && decide (c ≤ 'f') then c.toNat - 87
  else if decide ('A' ≤ c) && decide (c ≤ 'F') then c.toNat - 55
  else 0

/-- Whether a character is a hexadecimal digit. -/
def isHexDigitChar (c : Char) : Bool :=
  c.isDigit || (decide ('a' ≤ c) && decide (c ≤ 'f')) || (decide ('A' ≤ c) && decide (c ≤ 'F'))

/-- Modelled from the standard query-parameter decoding applied by the
server's HTTP framework to `?file=<value>` (`net/url` `QueryUnescape`,
not part of this repository): `%XY` with two hex digits decodes to the
character with that code, a bare `%` is an invalid escape (`none`), and
`+` decodes to a space. -/
def queryUnescapeList : List Char → Option (List Char)
  | [] => some []
  | c :: rest =>
    if c = '%' then
      match rest with
      | h1 :: h2 :: rest2 =>
        if isHexDigitChar h1 && isHexDigitChar h2 then
          (queryUnescapeList rest2).map
            (fun t => Char.ofNat (16 * hexDigitVal h1 + hexDigitVal h2) :: t)
        else none
      | _ => none
    else if c = '+' then (queryUnescapeList rest).map (fun t => ' ' :: t)
    else (queryUnescapeList rest).map (fun t => c :: t)

/-- Modelled from the standard query parsing applied by the server's
HTTP framework (`net/url` `ParseQuery` plus `Values.Get`, not part of
this repository), for a query string whose first pair carries the
`file` parameter: the first `&`-separated segment is taken, a segment
containing `;` is dropped as invalid, the segment is cut at the first
`=`, and both sides are query-unescaped; `none` means the `file`
parameter is absent or its pair was dropped. -/
def queryGetFile (query : String) : Option String :=
  if (query.data.takeWhile (fun x => x != '&')).contains ';' then none
  else
    match queryUnescapeList (cutFirst (query.data.takeWhile (fun x => x != '&')) '=').1,
          queryUnescapeList (cutFirst (query.data.takeWhile (fun x => x != '&')) '=').2 with
    | some k, some v => if k = ['f', 'i', 'l', 'e'] then some (String.mk v) else none
    | _, _ => none

lemma replaceAllChar_append (a b : List Char) (c : Char) (rep : List Char) :
    replaceAllChar (a ++ b) c rep = replaceAllChar a c rep ++ replaceAllChar b c rep := by
  induction a with
  | nil => simp [replaceAllChar]
  | cons x rest ih => simp [replaceAllChar, ih]

lemma encodeFile_data (s : String) :
    (encodeFile s).data = s.data.flatMap encChar := by
  show (String.mk _).data = _
  simp only [String.data]
  induction s.data with
  | nil => simp [replaceAllChar, List.flatMap]
  | cons x rest ih =>
    simp only [replaceAllChar, replaceAllChar_append, List.flatMap_cons, ih]
    congr 1
    by_cases h1 : x = ' '
    · subst h1; rfl
    · by_cases h2 : x = '#'
      · subst h2; rfl
      · by_cases h3 : x = '?'
        · subst h3; rfl
        · simp [replaceAllChar, encChar, h1, h2, h3]

/-- C10: the redirect encoding is exactly the three-character
substitution: `encodeFile` maps each character of the key through
`encChar` (space to `%20`, `#` to `%23`, `?` to `%3F`), and `encChar`
leaves every other character — in particular `%`, `&`, `+`, and `=` —
unchanged. -/
theorem encodeFile_char_substitution (key : String) :
    (encodeFile key).data = key.data.flatMap encChar ∧
    encChar '%' = ['%'] ∧ encChar '&' = ['&'] ∧
    encChar '+' = ['+'] ∧ encChar '=' = ['='] ∧
    (∀ c : Char, c ≠ ' ' → c ≠ '#' → c ≠ '?' → encChar c = [c]) := by
  refine ⟨encodeFile_data key, rfl, rfl, rfl, rfl, ?_⟩
  intro c h1 h2 h3
  simp [encChar, h1, h2, h3]

/-- C7: on a request to `/stream` with no `file` parameter, if the
store listing succeeds with an empty key sequence, the handler
responds 404 "No files available" and issues no redirect, whatever
the random draw. -/
theorem streamNoFile_empty_store (randomIndex : Nat) :
    streamNoFile (.ok []) randomIndex = .errorResp 404 "No files available" ∧
    ∀ location, streamNoFile (.ok []) randomIndex ≠ .redirect location := by
  constructor
  · rfl
  · intro location h
    simp [streamNoFile, selectRandomFile] at h

/-- C9: for a non-empty list of keys and any draw `r <` length (the
contract of `rand.Intn`), `selectRandomFile` returns exactly the key at
index `r` — hence membership in the list, a uniform draw over indices
whenever the draw itself is uniform, and total coverage: every index is
returned under some draw. -/
theorem selectRandomFile_uniform_coverage (fileNames : List String)
    (hne : fileNames ≠ []) :
    (∀ r (hr : r < fileNames.length),
      selectRandomFile fileNames r = .ok (fileNames.get ⟨r, hr⟩)) ∧
    (∀ r, r < fileNames.length →
      ∀ s, selectRandomFile fileNames r = .ok s → s ∈ fileNames) ∧
    (∀ i (hi : i < fileNames.length),
      ∃ r, r < fileNames.length ∧
        selectRandomFile fileNames r = .ok (fileNames.get ⟨i, hi⟩)) := by
  have hlen : fileNames.length ≠ 0 := by
    simpa using List.length_pos.mpr hne |>.ne'
  have hkey : ∀ r (hr : r < fileNames.length),
      selectRandomFile fileNames r = .ok (fileNames.get ⟨r, hr⟩) := by
    intro r hr
    simp [selectRandomFile, hlen, List.getD_eq_getElem?_getD,
      List.getElem?_eq_getElem hr]
  refine ⟨hkey, ?_, ?_⟩
  · intro r hr s hs
    have := hkey r hr
    rw [this] at hs
    cases hs
    exact List.get_mem _ _ _
  · intro i hi
    exact ⟨i, hi, hkey i hi⟩

/-- Closed witness for `selectRandomFile_uniform_coverage` at the
two-element key list `["a", "b"]`. -/
theorem selectRandomFile_uniform_coverage_witness :
    (∀ r (hr : r < (["a", "b"] : List String).length),
      selectRandomFile ["a", "b"] r = .ok ((["a", "b"] : List String).get ⟨r, hr⟩)) ∧
    (∀ r, r < (["a", "b"] : List String).length →
      ∀ s, selectRandomFile ["a", "b"] r = .ok s → s ∈ (["a", "b"] : List String)) ∧
    (∀ i (hi : i < (["a", "b"] : List String).length),
      ∃ r, r < (["a", "b"] : List String).length ∧
        selectRandomFile ["a", "b"] r = .ok ((["a", "b"] : List String).get ⟨i, hi⟩)) :=
  selectRandomFile_uniform_coverage ["a", "b"] (by decide)

/-- C1 counterexample: with key "song.mp3" present in the store, a
first resolve succeeds and issues one remote get, and a second
sequential resolve of the same key issues a second remote get — not
zero additional remote calls as claimed: `downloadFile` has no cache
lookup. -/
theorem downloadFile_second_call_hits_remote :
    (downloadFile [("song.mp3", .whole [7])] "song.mp3" ⟨[], 0⟩).1 = .ok "cache/song.mp3" ∧
    (downloadFile [("song.mp3", .whole [7])] "song.mp3" ⟨[], 0⟩).2.remoteGets = 1 ∧
    (downloadFile [("song.mp3", .whole [7])] "song.mp3"
      (downloadFile [("song.mp3", .whole [7])] "song.mp3" ⟨[], 0⟩).2).2.remoteGets = 2 ∧
    (downloadFile [("song.mp3", .whole [7])] "song.mp3"
        (downloadFile [("song.mp3", .whole [7])] "song.mp3" ⟨[], 0⟩).2).2.remoteGets ≠
      (downloadFile [("song.mp3", .whole [7])] "song.mp3" ⟨[], 0⟩).2.remoteGets :=
  ⟨rfl, rfl, rfl, by decide⟩

/-- C1 amended: for a key whose whole body is in the store, the first
resolve succeeds with path `cache/<key>`, and a second sequential
resolve succeeds with the same path but performs exactly one additional
remote get (the handler re-downloads unconditionally and overwrites the
cached file). -/
theorem downloadFile_redownloads_each_call (store : List (String × ObjectBody))
    (key : String) (bytes : List Nat) (st : DownloadState)
    (h : store.lookup key = some (.whole bytes)) :
    (downloadFile store key st).1 = .ok ("cache/" ++ key) ∧
    (downloadFile store key st).2.remoteGets = st.remoteGets + 1 ∧
    (downloadFile store key (downloadFile store key st).2).1 = .ok ("cache/" ++ key) ∧
    (downloadFile store key (downloadFile store key st).2).2.remoteGets
      = st.remoteGets + 2 := by
  refine ⟨?_, ?_, ?_, ?_⟩ <;> simp [downloadFile, h]

/-- Closed witness for `downloadFile_redownloads_each_call` at a
one-object store. -/
theorem downloadFile_redownloads_each_call_witness :
    (downloadFile [("k", ObjectBody.whole [7])] "k" ⟨[], 0⟩).1 = .ok ("cache/" ++ "k") ∧
    (downloadFile [("k", ObjectBody.whole [7])] "k" ⟨[], 0⟩).2.remoteGets
      = (⟨[], 0⟩ : DownloadState).remoteGets + 1 ∧
    (downloadFile [("k", ObjectBody.whole [7])] "k"
      (downloadFile [("k", ObjectBody.whole [7])] "k" ⟨[], 0⟩).2).1 = .ok ("cache/" ++ "k") ∧
    (downloadFile [("k", ObjectBody.whole [7])] "k"
        (downloadFile [("k", ObjectBody.whole [7])] "k" ⟨[], 0⟩).2).2.remoteGets
      = (⟨[], 0⟩ : DownloadState).remoteGets + 2 :=
  downloadFile_redownloads_each_call [("k", .whole [7])] "k" [7] ⟨[], 0⟩ rfl

/-- C2 (code bug): `downloadFile` performs no normalisation or
validation of the key. At the traversal key `../secret` it succeeds and
uses the path `cache/../secret`, whose lexical normalisation is
`secret` — outside the `cache` root — instead of rejecting the key. -/
theorem downloadFile_traversal_unchecked :
    (downloadFile [("../secret", .whole [9])] "../secret" ⟨[], 0⟩).1
      = .ok "cache/../secret" ∧
    normalizePath "cache/../secret" = ["secret"] ∧
    (normalizePath "cache/../secret").head? ≠ some "cache" := by
  refine ⟨rfl, ?_, ?_⟩ <;> decide

/-- C3 counterexample: with key "X" absent from the store, the first
resolve fails with a get error and issues one remote get, and a second
resolve of the same key issues a second remote get — the failure is not
cached, contradicting the claim that the second request performs no
remote call. -/
theorem downloadFile_failure_not_sticky :
    (downloadFile [] "X" ⟨[], 0⟩).1 = .error "failed to get object: NoSuchKey" ∧
    (downloadFile [] "X" ⟨[], 0⟩).2.remoteGets = 1 ∧
    (downloadFile [] "X" (downloadFile [] "X" ⟨[], 0⟩).2).2.remoteGets = 2 ∧
    (downloadFile [] "X" (downloadFile [] "X" ⟨[], 0⟩).2).2.remoteGets ≠
      (downloadFile [] "X" ⟨[], 0⟩).2.remoteGets :=
  ⟨rfl, rfl, rfl, by decide⟩

/-- C3 amended: a download failure for a key is not recorded anywhere:
a second resolve of the same absent key performs another remote get and
fails with the same error again. -/
theorem downloadFile_retries_failed_key (store : List (String × ObjectBody))
    (key : String) (st : DownloadState) (h : store.lookup key = none) :
    (downloadFile store key st).1 = .error "failed to get object: NoSuchKey" ∧
    (downloadFile store key st).2.remoteGets = st.remoteGets + 1 ∧
    (downloadFile store key (downloadFile store key st).2).1
      = .error "failed to get object: NoSuchKey" ∧
    (downloadFile store key (downloadFile store key st).2).2.remoteGets
      = st.remoteGets + 2 := by
  refine ⟨?_, ?_, ?_, ?_⟩ <;> simp [downloadFile, h]

/-- Closed witness for `downloadFile_retries_failed_key` at the empty
store. -/
theorem downloadFile_retries_failed_key_witness :
    (downloadFile [] "X" ⟨[], 0⟩).1 = .error "failed to get object: NoSuchKey" ∧
    (downloadFile [] "X" ⟨[], 0⟩).2.remoteGets = (⟨[], 0⟩ : DownloadState).remoteGets + 1 ∧
    (downloadFile [] "X" (downloadFile [] "X" ⟨[], 0⟩).2).1
      = .error "failed to get object: NoSuchKey" ∧
    (downloadFile [] "X" (downloadFile [] "X" ⟨[], 0⟩).2).2.remoteGets
      = (⟨[], 0⟩ : DownloadState).remoteGets + 2 :=
  downloadFile_retries_failed_key [] "X" ⟨[], 0⟩ rfl

/-- C4 counterexample: when the copy of key "k" fails after writing the
partial bytes `[1, 2]`, the resolve propagates the error but the
partial file `cache/k` remains in the filesystem with those bytes — it
is not removed as claimed. -/
theorem downloadFile_partial_file_left :
    (downloadFile [("k", .failsAfter [1, 2])] "k" ⟨[], 0⟩).1
      = .error "failed to copy file content" ∧
    (downloadFile [("k", .failsAfter [1, 2])] "k" ⟨[], 0⟩).2.fs.lookup "cache/k"
      = some [1, 2] :=
  ⟨rfl, rfl⟩

/-- C4 amended: when the download of a key fails during the copy of the
remote bytes, the error is propagated, but the partially written local
file stays under the cache root (the code never removes it). -/
theorem downloadFile_copy_failure_keeps_partial (store : List (String × ObjectBody))
    (key : String) (written : List Nat) (st : DownloadState)
    (h : store.lookup key = some (.failsAfter written)) :
    (downloadFile store key st).1 = .error "failed to copy file content" ∧
    (downloadFile store key st).2.fs.lookup ("cache/" ++ key) = some written := by
  constructor
  · simp [downloadFile, h]
  · simp [downloadFile, h, fsWrite, List.lookup]

/-- Closed witness for `downloadFile_copy_failure_keeps_partial` at a
store whose object "k" fails after the bytes `[1, 2]`. -/
theorem downloadFile_copy_failure_keeps_partial_witness :
    (downloadFile [("k", ObjectBody.failsAfter [1, 2])] "k" ⟨[], 0⟩).1
      = .error "failed to copy file content" ∧
    (downloadFile [("k", ObjectBody.failsAfter [1, 2])] "k" ⟨[], 0⟩).2.fs.lookup
      ("cache/" ++ "k") = some [1, 2] :=
  downloadFile_copy_failure_keeps_partial [("k", .failsAfter [1, 2])] "k" [1, 2] ⟨[], 0⟩ rfl

/-- C5 counterexample: a request for a key absent from the store — a
clearly not-found failure — is answered 500, not 404: the handler maps
every download error to 500 "Failed to download file". -/
theorem streamWithFile_notfound_500 :
    (streamWithFile [] "missing.mp3" none ⟨[], 0⟩).1.status = 500 ∧
    (streamWithFile [] "missing.mp3" none ⟨[], 0⟩).1.status ≠ 404 :=
  ⟨rfl, by decide⟩

/-- C5 amended: whenever `downloadFile` fails — whatever the error,
not-found included — the `stream` handler responds with status 500. -/
theorem streamWithFile_error_always_500 (store : List (String × ObjectBody))
    (fileName : String) (rangeHeader : Option String) (st : DownloadState)
    (err : String) (st1 : DownloadState)
    (h : downloadFile store fileName st = (.error err, st1)) :
    (streamWithFile store fileName rangeHeader st).1.status = 500 := by
  simp [streamWithFile, h]

/-- Closed witness for `streamWithFile_error_always_500` at the empty
store. -/
theorem streamWithFile_error_always_500_witness :
    (streamWithFile [] "missing.mp3" none ⟨[], 0⟩).1.status = 500 :=
  streamWithFile_error_always_500 [] "missing.mp3" none ⟨[], 0⟩
    "failed to get object: NoSuchKey" ⟨[], 1⟩ rfl

/-- C8: for any cached resource of 1000 bytes, `Range: bytes=100-199`
is answered 206 with `Content-Range: bytes 100-199/1000` and a body of
exactly the 100-byte source slice; `Range: bytes=2000-2100` is answered
416; and a request with no `Range` header is answered 200 with the full
1000-byte content. -/
theorem serveFile_range_correct (content : List Nat) (h : content.length = 1000) :
    serveFile content (some "bytes=100-199")
      = ⟨206, some "bytes 100-199/1000", (content.drop 100).take 100⟩ ∧
    ((content.drop 100).take 100).length = 100 ∧
    (serveFile content (some "bytes=2000-2100")).status = 416 ∧
    serveFile content none = ⟨200, none, content⟩ := by
  have h1 : parseRangeSpec "bytes=100-199" 1000 = some (100, 199) := by decide
  have h2 : parseRangeSpec "bytes=2000-2100" 1000 = none := by decide
  refine ⟨?_, ?_, ?_, ?_⟩
  · simp only [serveFile, h, h1]
    rfl
  · simp [List.length_take, List.length_drop, h]
  · simp [serveFile, h, h2]
  · rfl

/-- Closed witness for `serveFile_range_correct` at the all-zero
1000-byte content. -/
theorem serveFile_range_correct_witness :
    serveFile (List.replicate 1000 0) (some "bytes=100-199")
      = ⟨206, some "bytes 100-199/1000",
          ((List.replicate 1000 0).drop 100).take 100⟩ ∧
    (((List.replicate 1000 0).drop 100).take 100).length = 100 ∧
    (serveFile (List.replicate 1000 0) (some "bytes=2000-2100")).status = 416 ∧
    serveFile (List.replicate 1000 0) none = ⟨200, none, List.replicate 1000 0⟩ :=
  serveFile_range_correct (List.replicate 1000 0) (List.length_replicate 1000 0)

lemma queryUnescapeList_esc20 (L : List Char) :
    queryUnescapeList ('%' :: '2' :: '0' :: L)
      = (queryUnescapeList L).map (fun t => ' ' :: t) := rfl

lemma queryUnescapeList_esc23 (L : List Char) :
    queryUnescapeList ('%' :: '2' :: '3' :: L)
      = (queryUnescapeList L).map (fun t => '#' :: t) := rfl

lemma queryUnescapeList_esc3F (L : List Char) :
    queryUnescapeList ('%' :: '3' :: 'F' :: L)
      = (queryUnescapeList L).map (fun t => '?' :: t) := rfl

lemma queryUnescapeList_cons (c : Char) (L : List Char) (h1 : c ≠ '%') (h2 : c ≠ '+') :
    queryUnescapeList (c :: L) = (queryUnescapeList L).map (fun t => c :: t) := by
  rw [queryUnescapeList.eq_def]
  simp [h1, h2]

lemma queryUnescapeList_encChar (l : List Char) (h : ∀ c ∈ l, c ≠ '%' ∧ c ≠ '+') :
    queryUnescapeList (l.flatMap encChar) = some l := by
  induction l with
  | nil => rfl
  | cons c rest ih =>
    have hc := h c (List.mem_cons_self c rest)
    have ihr := ih (fun x hx => h x (List.mem_cons_of_mem c hx))
    rw [List.flatMap_cons]
    by_cases h1 : c = ' '
    · subst h1
      show queryUnescapeList ('%' :: '2' :: '0' :: rest.flatMap encChar) = some (' ' :: rest)
      rw [queryUnescapeList_esc20, ihr]
      rfl
    · by_cases h2 : c = '#'
      · subst h2
        show queryUnescapeList ('%' :: '2' :: '3' :: rest.flatMap encChar) = some ('#' :: rest)
        rw [queryUnescapeList_esc23, ihr]
        rfl
      · by_cases h3 : c = '?'
        · subst h3
          show queryUnescapeList ('%' :: '3' :: 'F' :: rest.flatMap encChar) = some ('?' :: rest)
          rw [queryUnescapeList_esc3F, ihr]
          rfl
        · have he : encChar c = [c] := by simp [encChar, h1, h2, h3]
          rw [he]
          show queryUnescapeList (c :: rest.flatMap encChar) = some (c :: rest)
          rw [queryUnescapeList_cons c _ hc.1 hc.2, ihr]
          rfl

lemma mem_flatMap_encChar {x : Char} {l : List Char} (hx : x ∈ l.flatMap encChar) :
    x ∈ l ∨ x = '%' ∨ x = '2' ∨ x = '0' ∨ x = '3' ∨ x = 'F' := by
  rw [List.mem_flatMap] at hx
  obtain ⟨c, hc, hxc⟩ := hx
  by_cases h1 : c = ' '
  · subst h1
    have he : encChar ' ' = ['%', '2', '0'] := rfl
    rw [he] at hxc
    simp only [List.mem_cons, List.not_mem_nil, or_false] at hxc
    tauto
  · by_cases h2 : c = '#'
    · subst h2
      have he : encChar '#' = ['%', '2', '3'] := rfl
      rw [he] at hxc
      simp only [List.mem_cons, List.not_mem_nil, or_false] at hxc
      tauto
    · by_cases h3 : c = '?'
      · subst h3
        have he : encChar '?' = ['%', '3', 'F'] := rfl
        rw [he] at hxc
        simp only [List.mem_cons, List.not_mem_nil, or_false] at hxc
        tauto
      · have he : encChar c = [c] := by simp [encChar, h1, h2, h3]
        rw [he] at hxc
        simp only [List.mem_singleton] at hxc
        subst hxc
        exact Or.inl hc

lemma takeWhile_eq_self {l : List Char} {p : Char → Bool} (h : ∀ x ∈ l, p x = true) :
    l.takeWhile p = l := by
  induction l with
  | nil => rfl
  | cons a rest ih =>
    rw [List.takeWhile_cons, if_pos (h a (List.mem_cons_self a rest)),
      ih (fun x hx => h x (List.mem_cons_of_mem a hx))]

lemma contains_eq_false {l : List Char} {c : Char} (h : ∀ x ∈ l, x ≠ c) :
    l.contains c = false := by
  induction l with
  | nil => rfl
  | cons a rest ih =>
    rw [List.contains_cons, ih (fun x hx => h x (List.mem_cons_of_mem a hx))]
    have : (c == a) = false := by
      exact beq_eq_false_iff_ne.mpr (Ne.symm (h a (List.mem_cons_self a rest)))
    rw [this]
    rfl

/-- C6 counterexample: the key `a+b` is left unchanged by the redirect
encoding (it contains no space, `#`, or `?`), but standard
query-parameter decoding turns `+` into a space, so the second request
sees the key `a b`, not the original key — the round-trip fails. -/
theorem encodeFile_roundtrip_fails_on_plus :
    encodeFile "a+b" = "a+b" ∧
    queryGetFile ("file=" ++ encodeFile "a+b") = some "a b" ∧
    some ("a b" : String) ≠ some ("a+b" : String) :=
  ⟨rfl, rfl, by decide⟩

/-- C6 amended: for every key none of whose characters is `%`, `+`,
`&`, or `;` (characters the encoder leaves unchanged but standard query
decoding treats specially), the redirect's `file` query parameter
decodes back to exactly the original key; in particular this holds for
keys containing spaces, `#`, and `?`, which are percent-encoded. -/
theorem encodeFile_roundtrip_safe_chars (key : String)
    (h : ∀ c ∈ key.data, c ≠ '%' ∧ c ≠ '+' ∧ c ≠ '&' ∧ c ≠ ';') :
    queryGetFile ("file=" ++ encodeFile key) = some key := by
  have hdata : ("file=" ++ encodeFile key).data
      = 'f' :: 'i' :: 'l' :: 'e' :: '=' :: key.data.flatMap encChar := by
    rw [String.data_append, encodeFile_data]
    rfl
  have hamp : ∀ x ∈ 'f' :: 'i' :: 'l' :: 'e' :: '=' :: key.data.flatMap encChar,
      (x != '&') = true := by
    intro x hx
    simp only [List.mem_cons] at hx
    rcases hx with rfl | rfl | rfl | rfl | rfl | hx
    · rfl
    · rfl
    · rfl
    · rfl
    · rfl
    · rcases mem_flatMap_encChar hx with hm | rfl | rfl | rfl | rfl | rfl
      · exact bne_iff_ne.mpr (h x hm).2.2.1
      · rfl
      · rfl
      · rfl
      · rfl
      · rfl
  have hseg : ('f' :: 'i' :: 'l' :: 'e' :: '=' :: key.data.flatMap encChar).takeWhile
      (fun x => x != '&') = 'f' :: 'i' :: 'l' :: 'e' :: '=' :: key.data.flatMap encChar :=
    takeWhile_eq_self hamp
  have hsemi : ('f' :: 'i' :: 'l' :: 'e' :: '=' :: key.data.flatMap encChar).contains ';'
      = false := by
    apply contains_eq_false
    intro x hx
    simp only [List.mem_cons] at hx
    rcases hx with rfl | rfl | rfl | rfl | rfl | hx
    · decide
    · decide
    · decide
    · decide
    · decide
    · rcases mem_flatMap_encChar hx with hm | rfl | rfl | rfl | rfl | rfl
      · exact (h x hm).2.2.2
      · decide
      · decide
      · decide
      · decide
      · decide
  have hcut : cutFirst ('f' :: 'i' :: 'l' :: 'e' :: '=' :: key.data.flatMap encChar) '='
      = (['f', 'i', 'l', 'e'], key.data.flatMap encChar) := rfl
  have hkeydec : queryUnescapeList (key.data.flatMap encChar) = some key.data :=
    queryUnescapeList_encChar key.data (fun c hc => ⟨(h c hc).1, (h c hc).2.1⟩)
  unfold queryGetFile
  rw [hdata, hseg, hsemi, hcut]
  simp only [Bool.false_eq_true, if_false]
  rw [show queryUnescapeList (['f', 'i', 'l', 'e'] : List Char)
    = some ['f', 'i', 'l', 'e'] from rfl, hkeydec]
  simp only [if_pos rfl]
  obtain ⟨ldata⟩ := key
  rfl

/-- Closed witness for `encodeFile_roundtrip_safe_chars` at the key
`a b#c?d`, which contains a space, `#`, and `?`. -/
theorem encodeFile_roundtrip_safe_chars_witness :
    queryGetFile ("file=" ++ encodeFile "a b#c?d") = some "a b#c?d" :=
  encodeFile_roundtrip_safe_chars "a b#c?d" (by decide)
